import Mathlib

/-
Shallow embedding of the order-block / break-of-structure scanner
(src/project.py, class OrderBlockVisualizer).

Prices are modelled as rationals; pandas NaN values (rolling windows that
are not yet full, shifted series at index 0) are modelled as `none`, and
any comparison against `none` is false, matching pandas comparison
semantics with NaN.
-/

namespace OB

/-- One OHLC bar of the input series (a row of the downloaded DataFrame). -/
structure Candle where
  timestamp : Int
  Open : ℚ
  High : ℚ
  Low : ℚ
  Close : ℚ
deriving DecidableEq

def defaultCandle : Candle := ⟨0, 0, 0, 0, 0⟩

def getC (data : List Candle) (i : Nat) : Candle := data.getD i defaultCandle

def openAt (data : List Candle) (i : Nat) : ℚ := (getC data i).Open

def highAt (data : List Candle) (i : Nat) : ℚ := (getC data i).High

def lowAt (data : List Candle) (i : Nat) : ℚ := (getC data i).Low

def closeAt (data : List Candle) (i : Nat) : ℚ := (getC data i).Close

/-- Minimum of a list of prices; `none` on the empty list (pandas NaN). -/
def minList : List ℚ → Option ℚ
  | [] => none
  | x :: xs => some (xs.foldl min x)

/-- Maximum of a list of prices; `none` on the empty list (pandas NaN). -/
def maxList : List ℚ → Option ℚ
  | [] => none
  | x :: xs => some (xs.foldl max x)

/-- `data.Low.rolling(window=w).min()` evaluated at position `j`:
the minimum of the `w` lows ending at bar `j`, NaN (`none`) while the
window is not yet full. -/
def rollingMinLow (w : Nat) (data : List Candle) (j : Nat) : Option ℚ :=
  if j + 1 < w then none
  else minList ((List.range w).map (fun k => lowAt data (j + 1 - w + k)))

/-- `data.High.rolling(window=w).max()` evaluated at position `j`. -/
def rollingMaxHigh (w : Nat) (data : List Candle) (j : Nat) : Option ℚ :=
  if j + 1 < w then none
  else maxList ((List.range w).map (fun k => highAt data (j + 1 - w + k)))

/-- `calculate_structure_low`: `data.Low.rolling(range_len).min().shift(1)`.
Entry `i` is the rolling minimum at bar `i - 1`, NaN (`none`) at `i = 0`. -/
def structureLow (w : Nat) (data : List Candle) (i : Nat) : Option ℚ :=
  if i = 0 then none else rollingMinLow w data (i - 1)

/-- The series named `minValue` in `structureLowIndexPointer`:
`data.High.rolling(range_len).max().shift(1)`. -/
def minValueSeries (w : Nat) (data : List Candle) (i : Nat) : Option ℚ :=
  if i = 0 then none else rollingMaxHigh w data (i - 1)

/-- One iteration of the loop in `structureLowIndexPointer`:
`if data.Low[i] < minValue[i]: minIndex[i] = i` (a comparison against NaN
is false, so a `none` baseline never fires). The write to `minValue[i]`
in the source is dead (that cell is never read again), so it is dropped. -/
def ptrBody (w : Nat) (data : List Candle) (idx : List Nat) (i : Nat) : List Nat :=
  match minValueSeries w data i with
  | none => idx
  | some v => if lowAt data i < v then idx.set i i else idx

/-- `structureLowIndexPointer`: starts from `minIndex = list(range(n))` and
runs the loop body for `i` in `range(1, range_len)`. -/
def structureLowIndexPointer (w : Nat) (data : List Candle) : List Nat :=
  ((List.range (w - 1)).map (fun k => k + 1)).foldl (ptrBody w data) (List.range data.length)

/-- The dictionary built by `add_order_block` (a zone or a BOS line). -/
structure Box where
  left : Nat
  top : ℚ
  bottom : ℚ
  right : Nat
  color : String
deriving DecidableEq

/-- `add_order_block(index, top, bottom, color)` with `right = len(data) - 1`. -/
def mkBlock (n : Nat) (index : Nat) (top bottom : ℚ) (color : String) : Box :=
  ⟨index, top, bottom, n - 1, color⟩

/-- The mutable state of the visualizer during `process_order_blocks`:
the three collections plus the candle-tracker fields set in `_init_variables`. -/
structure ScanState where
  shortBoxes : List Box
  longBoxes : List Box
  bosLines : List Box
  lastDownIndex : Nat
  lastDown : ℚ
  lastLow : ℚ
  lastUpIndex : Nat
  lastUp : ℚ
  lastUpLow : ℚ
  lastUpOpen : ℚ
  lastHigh : ℚ
  lastLongIndex : Nat
  lastShortIndex : Nat
deriving DecidableEq

/-- `_init_variables` together with the empty box/line lists from `__init__`. -/
def initState : ScanState := ⟨[], [], [], 0, 0, 0, 0, 0, 0, 0, 0, 0, 0⟩

/-- Python `list.remove`: drop the first element equal to `b`. -/
def removeFirst (b : Box) : List Box → List Box
  | [] => []
  | x :: xs => if x = b then xs else x :: removeFirst b xs

/-- Step 1 of the per-bar loop: the bearish structure break
(`if data.Low[i] < structureLow[i]`, false when the structural low is NaN). -/
def bearishBreak (w : Nat) (data : List Candle) (i : Nat) (s : ScanState) : ScanState :=
  match structureLow w data i with
  | none => s
  | some sl =>
    if lowAt data i < sl then
      let s1 :=
        if (i : Int) - (s.lastUpIndex : Int) < 1000 then
          { s with
            shortBoxes := s.shortBoxes ++
              [mkBlock data.length s.lastUpIndex s.lastHigh s.lastUpLow "rgba(255,0,0,0.9)"],
            bosLines := s.bosLines ++
              [mkBlock data.length ((structureLowIndexPointer w data).getD i 0) sl sl "red"] }
        else s
      { s1 with lastShortIndex := s1.lastUpIndex }
    else s

/-- Body of the `for box in self.short_boxes` loop: on `Close[i] > box.top`
remove the box (first equal element) and possibly emit a long zone and a
bullish BOS line. -/
def shortPassBody (n i : Nat) (c : ℚ) (box : Box) (s : ScanState) : ScanState :=
  if c > box.top then
    let s1 := { s with shortBoxes := removeFirst box s.shortBoxes }
    if (i : Int) - (s1.lastDownIndex : Int) < 1000 ∧ s1.lastLongIndex < i then
      { s1 with
        longBoxes := s1.longBoxes ++
          [mkBlock n s1.lastDownIndex s1.lastDown s1.lastLow "rgba(0,255,0,0.9)"],
        bosLines := s1.bosLines ++
          [mkBlock n box.left box.top box.top "green"],
        lastLongIndex := i }
    else s1
  else s

/-- The CPython `for box in self.short_boxes` loop: an internal cursor `k`
advances by one each iteration and the loop body may shrink the list it is
iterating over (this is the source's mutate-while-iterating pass). The
fuel argument starts at the initial list length, which bounds the number
of iterations because the cursor strictly increases and the list never
grows during the pass. -/
def shortPass (n i : Nat) (c : ℚ) : Nat → Nat → ScanState → ScanState
  | 0, _, s => s
  | fuel + 1, k, s =>
    if h : k < s.shortBoxes.length then
      shortPass n i c fuel (k + 1) (shortPassBody n i c (s.shortBoxes.get ⟨k, h⟩) s)
    else s

/-- Body of the `for box in self.long_boxes` loop: on `Close[i] < box.bottom`
remove the box. -/
def longPassBody (c : ℚ) (box : Box) (s : ScanState) : ScanState :=
  if c < box.bottom then { s with longBoxes := removeFirst box s.longBoxes } else s

/-- The `for box in self.long_boxes` loop, with the same cursor semantics
as `shortPass`. -/
def longPass (c : ℚ) : Nat → Nat → ScanState → ScanState
  | 0, _, s => s
  | fuel + 1, k, s =>
    if h : k < s.longBoxes.length then
      longPass c fuel (k + 1) (longPassBody c (s.longBoxes.get ⟨k, h⟩) s)
    else s

/-- The candle-tracker update at the end of each bar (last bearish candle,
last bullish candle, then the running high/low extrema). -/
def trackerUpdate (data : List Candle) (i : Nat) (s : ScanState) : ScanState :=
  let c := getC data i
  let s1 :=
    if c.Close < c.Open then
      { s with lastDown := c.High, lastDownIndex := i, lastLow := c.Low }
    else s
  let s2 :=
    if c.Open < c.Close then
      { s1 with lastUp := c.Close, lastUpIndex := i, lastUpOpen := c.Open,
                lastUpLow := c.Low, lastHigh := c.High }
    else s1
  { s2 with lastHigh := max s2.lastHigh c.High, lastLow := min s2.lastLow c.Low }

/-- One iteration of the outer `for i in range(len(self.data))` loop of
`process_order_blocks`. -/
def stepBar (w : Nat) (data : List Candle) (i : Nat) (s : ScanState) : ScanState :=
  let s1 := bearishBreak w data i s
  let s2 :=
    if 0 < s1.shortBoxes.length then
      shortPass data.length i (closeAt data i) s1.shortBoxes.length 0 s1
    else s1
  let s3 :=
    if 0 < s2.longBoxes.length then
      longPass (closeAt data i) s2.longBoxes.length 0 s2
    else s2
  trackerUpdate data i s3

/-- The state after processing bars `0, …, i - 1`. -/
def scanUpTo (w : Nat) (data : List Candle) : Nat → ScanState
  | 0 => initState
  | i + 1 => stepBar w data i (scanUpTo w data i)

/-- `process_order_blocks` run after `calculate_structure_low`, over the
whole series. -/
def process_order_blocks (w : Nat) (data : List Candle) : ScanState :=
  scanUpTo w data data.length

/-- Python negative indexing `series[-k]`: the element at `n - k` when the
series has at least `k` elements, an error (`none`) otherwise. -/
def negIdx (data : List Candle) (k : Nat) : Option Candle :=
  if k ≤ data.length then data.get? (data.length - k) else none

/-- `calculate_pdh_pdl`: `pdh = data.High[-2]`, `pdl = data.Low[-2]`;
the exception raised on a series shorter than two bars is `none`. -/
def calculate_pdh_pdl (data : List Candle) : Option (ℚ × ℚ) :=
  match negIdx data 2 with
  | none => none
  | some c => some (c.High, c.Low)

/-- Three non-bullish bars; bar 2 breaks below the structural low while the
tracker still holds its initialisation values. -/
def exC10 : List Candle :=
  [⟨0, 10, 11, 10, 10⟩, ⟨1, 10, 11, 10, 10⟩, ⟨2, 9, 10, 5, 9⟩]

/-- A bullish bar, two break bars creating two short zones, then a close
above both zone tops. -/
def exC1 : List Candle :=
  [⟨0, 9, 11, 8, 10⟩, ⟨1, 10, 10, 9, 10⟩, ⟨2, 9, 9, 7, 9⟩,
   ⟨3, 8, 8, 6, 8⟩, ⟨4, 10, 13, 9, 12⟩]

/-- Bar 0 is malformed (`High < Low`); bar 2 still triggers a short zone. -/
def exC8 : List Candle :=
  [⟨0, 10, 9, 12, 10⟩, ⟨1, 10, 11, 10, 10⟩, ⟨2, 9, 10, 5, 9⟩]

/-- Lows 5, 3, 10: the window before bar 2 has its minimum at index 1. -/
def exC2 : List Candle :=
  [⟨0, 5, 6, 5, 5⟩, ⟨1, 3, 4, 3, 3⟩, ⟨2, 10, 11, 10, 10⟩]

/-- A two-bar series, used with `range_len = 2`. -/
def exC6 : List Candle :=
  [⟨0, 10, 11, 9, 10⟩, ⟨1, 10, 11, 9, 10⟩]

/-- A two-bar series for the reference-level calculator. -/
def exC7 : List Candle := [⟨0, 5, 7, 3, 6⟩, ⟨1, 6, 8, 4, 7⟩]

/-- A one-bar series for the reference-level calculator. -/
def exC7one : List Candle := [⟨0, 5, 7, 3, 6⟩]

lemma foldl_min_le_init (l : List ℚ) : ∀ x : ℚ, l.foldl min x ≤ x := by
  induction l with
  | nil => intro x; exact le_refl x
  | cons a t ih =>
    intro x
    calc t.foldl min (min x a) ≤ min x a := ih (min x a)
      _ ≤ x := min_le_left x a

lemma foldl_min_le_of_mem (l : List ℚ) :
    ∀ x : ℚ, ∀ y ∈ l, l.foldl min x ≤ y := by
  induction l with
  | nil => intro x y hy; cases hy
  | cons a t ih =>
    intro x y hy
    rcases List.mem_cons.mp hy with h | h
    · subst h
      calc t.foldl min (min x y) ≤ min x y := foldl_min_le_init t (min x y)
        _ ≤ y := min_le_right x y
    · exact ih (min x a) y h

lemma foldl_min_eq_or_mem (l : List ℚ) :
    ∀ x : ℚ, l.foldl min x = x ∨ l.foldl min x ∈ l := by
  induction l with
  | nil => intro x; exact Or.inl rfl
  | cons a t ih =>
    intro x
    rcases ih (min x a) with h | h
    · rcases min_choice x a with hc | hc
      · exact Or.inl (by rw [List.foldl_cons, h, hc])
      · exact Or.inr (by rw [List.foldl_cons, h, hc]; exact List.mem_cons_self a t)
    · exact Or.inr (List.mem_cons_of_mem a h)

lemma minList_spec (l : List ℚ) (hl : l ≠ []) :
    ∃ m, minList l = some m ∧ (∀ y ∈ l, m ≤ y) ∧ m ∈ l := by
  cases l with
  | nil => exact absurd rfl hl
  | cons a t =>
    refine ⟨t.foldl min a, rfl, ?_, ?_⟩
    · intro y hy
      rcases List.mem_cons.mp hy with h | h
      · subst h; exact foldl_min_le_init t y
      · exact foldl_min_le_of_mem t a y h
    · rcases foldl_min_eq_or_mem t a with h | h
      · rw [h]; exact List.mem_cons_self a t
      · exact List.mem_cons_of_mem a h

/-- C3: for every series and positive `range_len`, `structureLow[i]` is
unavailable (NaN) for `i < range_len`, and for `i ≥ range_len` it is the
minimum low over the trailing window of bars `i - range_len … i - 1`. -/
theorem C3_structure_low_window (w : Nat) (data : List Candle) (i : Nat)
    (hw : 0 < w) :
    (i < w → structureLow w data i = none) ∧
    (w ≤ i → ∃ m, structureLow w data i = some m ∧
      (∀ j, i - w ≤ j → j < i → m ≤ lowAt data j) ∧
      ∃ j, i - w ≤ j ∧ j < i ∧ lowAt data j = m) := by
  constructor
  · intro hi
    unfold structureLow
    rcases Nat.eq_zero_or_pos i with h0 | h0
    · simp [h0]
    · have : i ≠ 0 := Nat.pos_iff_ne_zero.mp h0
      simp only [this, if_false]
      unfold rollingMinLow
      have : i - 1 + 1 < w := by omega
      simp [this]
  · intro hi
    unfold structureLow rollingMinLow
    have hne : i ≠ 0 := by omega
    have hnlt : ¬ (i - 1 + 1 < w) := by omega
    simp only [hne, if_false, hnlt]
    set L := (List.range w).map (fun k => lowAt data (i - 1 + 1 - w + k)) with hL
    have hLne : L ≠ [] := by
      intro h
      have : L.length = w := by rw [hL, List.length_map, List.length_range]
      rw [h] at this
      simp at this
      omega
    obtain ⟨m, hm, hle, hmem⟩ := minList_spec L hLne
    refine ⟨m, hm, ?_, ?_⟩
    · intro j hj1 hj2
      have hjk : i - 1 + 1 - w + (j - (i - w)) = j := by omega
      have : lowAt data j ∈ L := by
        rw [hL]
        refine List.mem_map.mpr ⟨j - (i - w), List.mem_range.mpr (by omega), ?_⟩
        rw [hjk]
      exact hle _ this
    · rw [hL] at hmem
      obtain ⟨k, hk, hkm⟩ := List.mem_map.mp hmem
      have hkw := List.mem_range.mp hk
      exact ⟨i - 1 + 1 - w + k, by omega, by omega, hkm⟩

/-- C3 witness: `range_len = 2`, bar 2 of the concrete series `exC10`. -/
theorem C3_structure_low_window_witness :
    0 < 2 ∧
    ((2 < 2 → structureLow 2 exC10 2 = none) ∧
     (2 ≤ 2 → ∃ m, structureLow 2 exC10 2 = some m ∧
       (∀ j, 2 - 2 ≤ j → j < 2 → m ≤ lowAt exC10 j) ∧
       ∃ j, 2 - 2 ≤ j ∧ j < 2 ∧ lowAt exC10 j = m)) :=
  ⟨by decide, C3_structure_low_window 2 exC10 2 (by decide)⟩

lemma set_range_self (n i : Nat) : (List.range n).set i i = List.range n := by
  apply List.ext_getElem (by simp)
  intro j h₁ h₂
  rw [List.getElem_set]
  split
  · next heq => simp [heq]
  · rfl

lemma ptrBody_range (w : Nat) (data : List Candle) (i : Nat) :
    ptrBody w data (List.range data.length) i = List.range data.length := by
  unfold ptrBody
  cases minValueSeries w data i with
  | none => rfl
  | some v =>
    simp only
    split
    · exact set_range_self _ _
    · rfl

lemma foldl_ptrBody_range (w : Nat) (data : List Candle) (l : List Nat) :
    l.foldl (ptrBody w data) (List.range data.length) = List.range data.length := by
  induction l with
  | nil => rfl
  | cons a t ih => rw [List.foldl_cons, ptrBody_range, ih]

/-- The overwrite in the bootstrap loop only ever rewrites a slot with the
value it already holds, and its guard never fires anyway (the shifted
rolling-max baseline is NaN on `1 … range_len - 1`), so the pointer list
is exactly `0, 1, …, n - 1`. -/
lemma ptr_eq_range (w : Nat) (data : List Candle) :
    structureLowIndexPointer w data = List.range data.length :=
  foldl_ptrBody_range w data _

/-- C2 counterexample: with `range_len = 2` and lows `5, 3, 10`,
`structureLowIndex[2]` is `2` — the current bar itself — which is not an
index of the trailing window (all of whose indices are `≤ 1`), and the low
at index `1` is strictly below the low at the returned index, so the
returned index does not hold the window minimum. -/
theorem C2_counterexample_ptr :
    (structureLowIndexPointer 2 exC2).getD 2 0 = 2 ∧
    ¬ ((structureLowIndexPointer 2 exC2).getD 2 0 ≤ 1) ∧
    lowAt exC2 1 < lowAt exC2 ((structureLowIndexPointer 2 exC2).getD 2 0) :=
  ⟨by decide, by decide, by decide⟩

/-- C2 amended: for every series, positive `range_len` and bar
`range_len ≤ i < n`, `structureLowIndex[i]` equals `i` itself (not the
argmin of the trailing window). -/
theorem C2_ptr_is_self (w : Nat) (data : List Candle) (i : Nat)
    (hw : 0 < w) (hi : w ≤ i) (hn : i < data.length) :
    (structureLowIndexPointer w data).getD i 0 = i := by
  rw [ptr_eq_range]
  rw [List.getD_eq_getElem _ _ (by simpa using hn)]
  simp

/-- C2 amended witness: bar 2 of `exC2` with `range_len = 2`. -/
theorem C2_ptr_is_self_witness :
    0 < 2 ∧ 2 ≤ 2 ∧ 2 < exC2.length ∧
    (structureLowIndexPointer 2 exC2).getD 2 0 = 2 :=
  ⟨by decide, by decide, by decide,
    C2_ptr_is_self 2 exC2 2 (by decide) (by decide) (by decide)⟩

lemma shortPass_rel (n i : Nat) (c : ℚ) (R : ScanState → ScanState → Prop)
    (hrefl : ∀ s, R s s)
    (htrans : ∀ a b d : ScanState, R a b → R b d → R a d)
    (hbody : ∀ (b : Box) (s : ScanState), R s (shortPassBody n i c b s)) :
    ∀ (fuel k : Nat) (s : ScanState), R s (shortPass n i c fuel k s) := by
  intro fuel
  induction fuel with
  | zero => intro k s; exact hrefl s
  | succ f ih =>
    intro k s
    unfold shortPass
    split
    · exact htrans _ _ _ (hbody _ s) (ih (k + 1) _)
    · exact hrefl s

lemma longPass_rel (c : ℚ) (R : ScanState → ScanState → Prop)
    (hrefl : ∀ s, R s s)
    (htrans : ∀ a b d : ScanState, R a b → R b d → R a d)
    (hbody : ∀ (b : Box) (s : ScanState), R s (longPassBody c b s)) :
    ∀ (fuel k : Nat) (s : ScanState), R s (longPass c fuel k s) := by
  intro fuel
  induction fuel with
  | zero => intro k s; exact hrefl s
  | succ f ih =>
    intro k s
    unfold longPass
    split
    · exact htrans _ _ _ (hbody _ s) (ih (k + 1) _)
    · exact hrefl s

lemma longPassBody_proj (c : ℚ) (b : Box) (s : ScanState) :
    (longPassBody c b s).shortBoxes = s.shortBoxes ∧
    (longPassBody c b s).bosLines = s.bosLines ∧
    (longPassBody c b s).lastUpLow = s.lastUpLow ∧
    (longPassBody c b s).lastHigh = s.lastHigh := by
  unfold longPassBody
  split
  · exact ⟨rfl, rfl, rfl, rfl⟩
  · exact ⟨rfl, rfl, rfl, rfl⟩

lemma trackerUpdate_proj (data : List Candle) (i : Nat) (s : ScanState) :
    (trackerUpdate data i s).shortBoxes = s.shortBoxes ∧
    (trackerUpdate data i s).longBoxes = s.longBoxes ∧
    (trackerUpdate data i s).bosLines = s.bosLines := by
  unfold trackerUpdate
  dsimp only
  split
  · split
    · exact ⟨rfl, rfl, rfl⟩
    · exact ⟨rfl, rfl, rfl⟩
  · split
    · exact ⟨rfl, rfl, rfl⟩
    · exact ⟨rfl, rfl, rfl⟩

lemma bearishBreak_bos (w : Nat) (data : List Candle) (i : Nat) (s : ScanState) :
    ∃ u, (bearishBreak w data i s).bosLines = s.bosLines ++ u := by
  unfold bearishBreak
  cases structureLow w data i with
  | none => exact ⟨[], (List.append_nil _).symm⟩
  | some sl =>
    dsimp only
    split
    · split
      · exact ⟨_, rfl⟩
      · exact ⟨[], (List.append_nil _).symm⟩
    · exact ⟨[], (List.append_nil _).symm⟩

lemma shortPassBody_bos (n i : Nat) (c : ℚ) (b : Box) (s : ScanState) :
    ∃ u, (shortPassBody n i c b s).bosLines = s.bosLines ++ u := by
  unfold shortPassBody
  split
  · dsimp only
    split
    · exact ⟨_, rfl⟩
    · exact ⟨[], (List.append_nil _).symm⟩
  · exact ⟨[], (List.append_nil _).symm⟩

lemma shortPass_bos (n i : Nat) (c : ℚ) (fuel k : Nat) (s : ScanState) :
    ∃ u, (shortPass n i c fuel k s).bosLines = s.bosLines ++ u := by
  refine shortPass_rel n i c (fun a b => ∃ u, b.bosLines = a.bosLines ++ u)
    (fun s => ⟨[], (List.append_nil _).symm⟩) ?_ ?_ fuel k s
  · rintro a b d ⟨u, hu⟩ ⟨v, hv⟩
    exact ⟨u ++ v, by rw [hv, hu, List.append_assoc]⟩
  · intro b s; exact shortPassBody_bos n i c b s

lemma longPass_bos (c : ℚ) (fuel k : Nat) (s : ScanState) :
    ∃ u, (longPass c fuel k s).bosLines = s.bosLines ++ u := by
  refine longPass_rel c (fun a b => ∃ u, b.bosLines = a.bosLines ++ u)
    (fun s => ⟨[], (List.append_nil _).symm⟩) ?_ ?_ fuel k s
  · rintro a b d ⟨u, hu⟩ ⟨v, hv⟩
    exact ⟨u ++ v, by rw [hv, hu, List.append_assoc]⟩
  · intro b s
    exact ⟨[], ((longPassBody_proj c b s).2.1.trans (List.append_nil _).symm)⟩

lemma stepBar_bos (w : Nat) (data : List Candle) (i : Nat) (s : ScanState) :
    ∃ u, (stepBar w data i s).bosLines = s.bosLines ++ u := by
  unfold stepBar
  dsimp only
  obtain ⟨u1, h1⟩ := bearishBreak_bos w data i s
  set s1 := bearishBreak w data i s with hs1
  set s2 := if 0 < s1.shortBoxes.length then
      shortPass data.length i (closeAt data i) s1.shortBoxes.length 0 s1
    else s1 with hs2
  have h2 : ∃ u, s2.bosLines = s1.bosLines ++ u := by
    rw [hs2]
    split
    · exact shortPass_bos data.length i (closeAt data i) s1.shortBoxes.length 0 s1
    · exact ⟨[], (List.append_nil _).symm⟩
  set s3 := if 0 < s2.longBoxes.length then
      longPass (closeAt data i) s2.longBoxes.length 0 s2
    else s2 with hs3
  have h3 : ∃ u, s3.bosLines = s2.bosLines ++ u := by
    rw [hs3]
    split
    · exact longPass_bos (closeAt data i) s2.longBoxes.length 0 s2
    · exact ⟨[], (List.append_nil _).symm⟩
  obtain ⟨u2, h2⟩ := h2
  obtain ⟨u3, h3⟩ := h3
  refine ⟨u1 ++ (u2 ++ u3), ?_⟩
  rw [(trackerUpdate_proj data i s3).2.2, h3, h2, h1]
  simp [List.append_assoc]

/-- C5: the BOS-line collection is append-only across the scan: the lines
after processing bar `i` extend the lines before it, so no line is removed
or modified and the count is monotone non-decreasing. -/
theorem C5_bos_append_only (w : Nat) (data : List Candle) (i : Nat) :
    (∃ u, (scanUpTo w data (i + 1)).bosLines = (scanUpTo w data i).bosLines ++ u) ∧
    (scanUpTo w data i).bosLines.length ≤ (scanUpTo w data (i + 1)).bosLines.length := by
  obtain ⟨u, hu⟩ := stepBar_bos w data i (scanUpTo w data i)
  refine ⟨⟨u, hu⟩, ?_⟩
  have : scanUpTo w data (i + 1) = stepBar w data i (scanUpTo w data i) := rfl
  rw [this, hu]
  simp

/-- A BOS line is a horizontal segment at a single price, extended to the
last bar of the dataset. -/
def BosGeom (n : Nat) (b : Box) : Prop := b.right = n - 1 ∧ b.top = b.bottom

lemma bearishBreak_geom (w : Nat) (data : List Candle) (i : Nat) (s : ScanState)
    (hs : ∀ x ∈ s.bosLines, BosGeom data.length x) :
    ∀ x ∈ (bearishBreak w data i s).bosLines, BosGeom data.length x := by
  unfold bearishBreak
  cases structureLow w data i with
  | none => exact hs
  | some sl =>
    dsimp only
    split
    · split
      · intro x hx
        rcases List.mem_append.mp hx with h | h
        · exact hs x h
        · rcases List.mem_singleton.mp h with rfl
          exact ⟨rfl, rfl⟩
      · exact hs
    · exact hs

lemma shortPassBody_geom (n i : Nat) (c : ℚ) (b : Box) (s : ScanState)
    (hs : ∀ x ∈ s.bosLines, BosGeom n x) :
    ∀ x ∈ (shortPassBody n i c b s).bosLines, BosGeom n x := by
  unfold shortPassBody
  split
  · dsimp only
    split
    · intro x hx
      rcases List.mem_append.mp hx with h | h
      · exact hs x h
      · rcases List.mem_singleton.mp h with rfl
        exact ⟨rfl, rfl⟩
    · exact hs
  · exact hs

lemma stepBar_geom (w : Nat) (data : List Candle) (i : Nat) (s : ScanState)
    (hs : ∀ x ∈ s.bosLines, BosGeom data.length x) :
    ∀ x ∈ (stepBar w data i s).bosLines, BosGeom data.length x := by
  unfold stepBar
  dsimp only
  set s1 := bearishBreak w data i s with hs1
  have h1 : ∀ x ∈ s1.bosLines, BosGeom data.length x := bearishBreak_geom w data i s hs
  set s2 := if 0 < s1.shortBoxes.length then
      shortPass data.length i (closeAt data i) s1.shortBoxes.length 0 s1
    else s1 with hs2
  have h2 : ∀ x ∈ s2.bosLines, BosGeom data.length x := by
    rw [hs2]
    split
    · exact shortPass_rel data.length i (closeAt data i)
        (fun a b => (∀ x ∈ a.bosLines, BosGeom data.length x) →
          ∀ x ∈ b.bosLines, BosGeom data.length x)
        (fun s h => h) (fun a b d hab hbd h => hbd (hab h))
        (fun b s h => shortPassBody_geom data.length i (closeAt data i) b s h)
        s1.shortBoxes.length 0 s1 h1
    · exact h1
  set s3 := if 0 < s2.longBoxes.length then
      longPass (closeAt data i) s2.longBoxes.length 0 s2
    else s2 with hs3
  have h3 : ∀ x ∈ s3.bosLines, BosGeom data.length x := by
    rw [hs3]
    split
    · refine longPass_rel (closeAt data i)
        (fun a b => (∀ x ∈ a.bosLines, BosGeom data.length x) →
          ∀ x ∈ b.bosLines, BosGeom data.length x)
        (fun s h => h) (fun a b d hab hbd h => hbd (hab h))
        ?_ s2.longBoxes.length 0 s2 h2
      intro b s h
      rw [(longPassBody_proj (closeAt data i) b s).2.1]
      exact h
    · exact h2
  rw [(trackerUpdate_proj data i s3).2.2]
  exact h3

lemma scan_geom (w : Nat) (data : List Candle) :
    ∀ i, ∀ x ∈ (scanUpTo w data i).bosLines, BosGeom data.length x := by
  intro i
  induction i with
  | zero => intro x hx; cases hx
  | succ k ih => exact stepBar_geom w data k (scanUpTo w data k) ih

/-- C9: every BOS line emitted by the scan — bearish or bullish — has its
right edge at the last bar index of the dataset and has `top = bottom`
(a horizontal segment at a single price). -/
theorem C9_bos_geometry (w : Nat) (data : List Candle) (b : Box)
    (hb : b ∈ (process_order_blocks w data).bosLines) :
    b.right = data.length - 1 ∧ b.top = b.bottom :=
  scan_geom w data data.length b hb

/-- C9 witness: the bearish BOS line produced on `exC10`. -/
theorem C9_bos_geometry_witness :
    (⟨2, 10, 10, 2, "red"⟩ : Box) ∈ (process_order_blocks 2 exC10).bosLines ∧
    ((⟨2, 10, 10, 2, "red"⟩ : Box).right = exC10.length - 1 ∧
     (⟨2, 10, 10, 2, "red"⟩ : Box).top = (⟨2, 10, 10, 2, "red"⟩ : Box).bottom) :=
  ⟨by decide, C9_bos_geometry 2 exC10 ⟨2, 10, 10, 2, "red"⟩ (by decide)⟩

lemma removeFirst_sub (b : Box) : ∀ l : List Box, removeFirst b l ⊆ l := by
  intro l
  induction l with
  | nil => exact fun x hx => hx
  | cons a t ih =>
    unfold removeFirst
    split
    · exact List.subset_cons_self a t
    · intro x hx
      rcases List.mem_cons.mp hx with h | h
      · exact h ▸ List.mem_cons_self a t
      · exact List.mem_cons_of_mem a (ih h)

lemma getC_valid (data : List Candle) (h : ∀ c ∈ data, c.Low ≤ c.High) (i : Nat) :
    (getC data i).Low ≤ (getC data i).High := by
  unfold getC
  by_cases hi : i < data.length
  · rw [List.getD_eq_getElem _ _ hi]
    exact h _ (List.getElem_mem hi)
  · rw [List.getD_eq_default _ _ (by omega)]
    exact le_refl 0

/-- The invariant behind the short-zone boundaries: the running bullish
high never drops below the stored bullish low, and every active short box
has `bottom ≤ top`. -/
def ShortGood (s : ScanState) : Prop :=
  s.lastUpLow ≤ s.lastHigh ∧ ∀ b ∈ s.shortBoxes, b.bottom ≤ b.top

lemma bearishBreak_good (w : Nat) (data : List Candle) (i : Nat) (s : ScanState)
    (h : ShortGood s) : ShortGood (bearishBreak w data i s) := by
  obtain ⟨h1, h2⟩ := h
  unfold bearishBreak
  cases structureLow w data i with
  | none => exact ⟨h1, h2⟩
  | some sl =>
    dsimp only
    split
    · split
      · refine ⟨h1, ?_⟩
        intro b hb
        rcases List.mem_append.mp hb with hm | hm
        · exact h2 b hm
        · rcases List.mem_singleton.mp hm with rfl
          exact h1
      · exact ⟨h1, h2⟩
    · exact ⟨h1, h2⟩

lemma shortPassBody_good (n i : Nat) (c : ℚ) (b : Box) (s : ScanState)
    (h : ShortGood s) : ShortGood (shortPassBody n i c b s) := by
  obtain ⟨h1, h2⟩ := h
  unfold shortPassBody
  split
  · dsimp only
    split
    · exact ⟨h1, fun x hx => h2 x (removeFirst_sub b s.shortBoxes hx)⟩
    · exact ⟨h1, fun x hx => h2 x (removeFirst_sub b s.shortBoxes hx)⟩
  · exact ⟨h1, h2⟩

lemma trackerUpdate_good (data : List Candle) (i : Nat) (s : ScanState)
    (hc : (getC data i).Low ≤ (getC data i).High)
    (h : ShortGood s) : ShortGood (trackerUpdate data i s) := by
  obtain ⟨h1, h2⟩ := h
  unfold trackerUpdate
  dsimp only
  by_cases hb : (getC data i).Close < (getC data i).Open
  · by_cases hu : (getC data i).Open < (getC data i).Close
    · exact absurd (lt_trans hb hu) (lt_irrefl _)
    · simp only [hb, hu, if_true, if_false]
      exact ⟨le_trans h1 (le_max_left _ _), h2⟩
  · by_cases hu : (getC data i).Open < (getC data i).Close
    · simp only [hb, hu, if_true, if_false]
      exact ⟨le_trans hc (le_max_left _ _), h2⟩
    · simp only [hb, hu, if_true, if_false]
      exact ⟨le_trans h1 (le_max_left _ _), h2⟩

lemma stepBar_good (w : Nat) (data : List Candle) (i : Nat) (s : ScanState)
    (hc : (getC data i).Low ≤ (getC data i).High)
    (h : ShortGood s) : ShortGood (stepBar w data i s) := by
  unfold stepBar
  dsimp only
  set s1 := bearishBreak w data i s with hs1
  have h1 : ShortGood s1 := bearishBreak_good w data i s h
  set s2 := if 0 < s1.shortBoxes.length then
      shortPass data.length i (closeAt data i) s1.shortBoxes.length 0 s1
    else s1 with hs2
  have h2 : ShortGood s2 := by
    rw [hs2]
    split
    · exact shortPass_rel data.length i (closeAt data i)
        (fun a b => ShortGood a → ShortGood b)
        (fun s h => h) (fun a b d hab hbd h => hbd (hab h))
        (fun b s h => shortPassBody_good data.length i (closeAt data i) b s h)
        s1.shortBoxes.length 0 s1 h1
    · exact h1
  set s3 := if 0 < s2.longBoxes.length then
      longPass (closeAt data i) s2.longBoxes.length 0 s2
    else s2 with hs3
  have h3 : ShortGood s3 := by
    rw [hs3]
    split
    · refine longPass_rel (closeAt data i)
        (fun a b => ShortGood a → ShortGood b)
        (fun s h => h) (fun a b d hab hbd h => hbd (hab h))
        ?_ s2.longBoxes.length 0 s2 h2
      intro b s h
      obtain ⟨p1, _, p3, p4⟩ := longPassBody_proj (closeAt data i) b s
      exact ⟨p3 ▸ p4 ▸ h.1, p1 ▸ h.2⟩
    · exact h2
  exact trackerUpdate_good data i s3 hc h3

lemma scan_good (w : Nat) (data : List Candle)
    (h : ∀ c ∈ data, c.Low ≤ c.High) :
    ∀ i, ShortGood (scanUpTo w data i) := by
  intro i
  induction i with
  | zero => exact ⟨le_refl 0, fun b hb => absurd hb (List.not_mem_nil b)⟩
  | succ k ih =>
    exact stepBar_good w data k (scanUpTo w data k) (getC_valid data h k) ih

/-- C4: on any input whose bars all satisfy `High ≥ Low`, at every point of
the scan the tracker satisfies `lastUpLow ≤ lastHigh` — so every short
zone is created with `top ≥ bottom` — and every active short zone has
`bottom ≤ top`. -/
theorem C4_short_zone_top_ge_bottom (w : Nat) (data : List Candle)
    (h : ∀ c ∈ data, c.Low ≤ c.High) (i : Nat) :
    (scanUpTo w data i).lastUpLow ≤ (scanUpTo w data i).lastHigh ∧
    ∀ b ∈ (scanUpTo w data i).shortBoxes, b.bottom ≤ b.top :=
  scan_good w data h i

/-- C4 witness: the scan over `exC10` after its three bars. -/
theorem C4_short_zone_top_ge_bottom_witness :
    (∀ c ∈ exC10, c.Low ≤ c.High) ∧
    ((scanUpTo 2 exC10 3).lastUpLow ≤ (scanUpTo 2 exC10 3).lastHigh ∧
     ∀ b ∈ (scanUpTo 2 exC10 3).shortBoxes, b.bottom ≤ b.top) :=
  ⟨by decide, C4_short_zone_top_ge_bottom 2 exC10 (by decide) 3⟩

lemma structureLow_none_of_lt (w : Nat) (data : List Candle) (i : Nat)
    (h : i < w) : structureLow w data i = none := by
  unfold structureLow
  rcases Nat.eq_zero_or_pos i with h0 | h0
  · simp [h0]
  · have hne : i ≠ 0 := by omega
    simp only [hne, if_false]
    unfold rollingMinLow
    have : i - 1 + 1 < w := by omega
    simp [this]

lemma bearishBreak_of_none (w : Nat) (data : List Candle) (i : Nat)
    (s : ScanState) (h : structureLow w data i = none) :
    bearishBreak w data i s = s := by
  unfold bearishBreak
  rw [h]

lemma scan_empty (w : Nat) (data : List Candle) (hl : data.length = w) :
    ∀ i, i ≤ data.length →
      (scanUpTo w data i).shortBoxes = [] ∧
      (scanUpTo w data i).longBoxes = [] ∧
      (scanUpTo w data i).bosLines = [] := by
  intro i
  induction i with
  | zero => intro _; exact ⟨rfl, rfl, rfl⟩
  | succ k ih =>
    intro hk
    obtain ⟨h1, h2, h3⟩ := ih (by omega)
    have hsl : structureLow w data k = none :=
      structureLow_none_of_lt w data k (by omega)
    have hstep : scanUpTo w data (k + 1) = stepBar w data k (scanUpTo w data k) := rfl
    rw [hstep]
    unfold stepBar
    dsimp only
    rw [bearishBreak_of_none w data k _ hsl, h1]
    simp only [List.length_nil, lt_self_iff_false, if_false]
    rw [h2]
    simp only [List.length_nil, lt_self_iff_false, if_false]
    obtain ⟨p1, p2, p3⟩ := trackerUpdate_proj data k (scanUpTo w data k)
    exact ⟨p1.trans h1, p2.trans h2, p3.trans h3⟩

/-- C6: a series whose length is exactly `range_len` yields no available
structural-low value at any bar, and the scan emits no short zone, no long
zone and no BOS line. -/
theorem C6_boundary_series (w : Nat) (data : List Candle)
    (hw : 0 < w) (hl : data.length = w) :
    (process_order_blocks w data).shortBoxes = [] ∧
    (process_order_blocks w data).longBoxes = [] ∧
    (process_order_blocks w data).bosLines = [] ∧
    ∀ i < data.length, structureLow w data i = none := by
  obtain ⟨h1, h2, h3⟩ := scan_empty w data hl data.length (le_refl _)
  exact ⟨h1, h2, h3, fun i hi => structureLow_none_of_lt w data i (by omega)⟩

/-- C6 witness: the two-bar series `exC6` with `range_len = 2`. -/
theorem C6_boundary_series_witness :
    0 < 2 ∧ exC6.length = 2 ∧
    ((process_order_blocks 2 exC6).shortBoxes = [] ∧
     (process_order_blocks 2 exC6).longBoxes = [] ∧
     (process_order_blocks 2 exC6).bosLines = [] ∧
     ∀ i < exC6.length, structureLow 2 exC6 i = none) :=
  ⟨by decide, by decide, C6_boundary_series 2 exC6 (by decide) (by decide)⟩

/-- C7: on a series of length `n ≥ 2` the reference-level calculation
returns `PDH = High[n-2]` and `PDL = Low[n-2]` (the second-to-last bar);
on a series of fewer than two bars it fails, signalling insufficient data. -/
theorem C7_pdh_pdl (data : List Candle) :
    (2 ≤ data.length →
      calculate_pdh_pdl data =
        some ((data.getD (data.length - 2) defaultCandle).High,
              (data.getD (data.length - 2) defaultCandle).Low)) ∧
    (data.length < 2 → calculate_pdh_pdl data = none) := by
  constructor
  · intro h
    unfold calculate_pdh_pdl negIdx
    rw [if_pos h]
    have hlt : data.length - 2 < data.length := by omega
    rw [List.getD_eq_getElem _ _ hlt]
    rw [List.get?_eq_getElem? _ _, List.getElem?_eq_getElem hlt]
  · intro h
    unfold calculate_pdh_pdl negIdx
    rw [if_neg (by omega)]

/-- C7 witness: the two-bar series `exC7` and the one-bar series `exC7one`. -/
theorem C7_pdh_pdl_witness :
    (2 ≤ exC7.length ∧
      calculate_pdh_pdl exC7 =
        some ((exC7.getD (exC7.length - 2) defaultCandle).High,
              (exC7.getD (exC7.length - 2) defaultCandle).Low)) ∧
    (exC7one.length < 2 ∧ calculate_pdh_pdl exC7one = none) :=
  ⟨⟨by decide, (C7_pdh_pdl exC7).1 (by decide)⟩,
   ⟨by decide, (C7_pdh_pdl exC7one).2 (by decide)⟩⟩

/-- C1: on `exC1` two short zones (both with `top = 11`) are active when
bar 4 (close 12) is processed, and `12 > 11` holds for both, yet after the
bar one of them is still active: the `list.remove` inside the
`for box in self.short_boxes` loop shifts the list under the iteration
cursor and the zone that follows a removed zone is skipped, contradicting
the removal contract. -/
theorem C1_removal_pass_skips_zone :
    (scanUpTo 2 exC1 4).shortBoxes =
      [⟨0, 11, 8, 4, "rgba(255,0,0,0.9)"⟩, ⟨0, 11, 8, 4, "rgba(255,0,0,0.9)"⟩] ∧
    (⟨0, 11, 8, 4, "rgba(255,0,0,0.9)"⟩ : Box).top < closeAt exC1 4 ∧
    (process_order_blocks 2 exC1).shortBoxes =
      [⟨0, 11, 8, 4, "rgba(255,0,0,0.9)"⟩] :=
  ⟨by decide, by decide, by decide⟩

/-- C8: `exC8` contains a malformed bar (`High < Low` at bar 0), yet no
rejection happens anywhere: the scan runs over the malformed series and
emits a short zone (whose top even derives from the malformed bar's
running extremum). -/
theorem C8_malformed_input_scanned :
    (getC exC8 0).High < (getC exC8 0).Low ∧
    (process_order_blocks 2 exC8).shortBoxes =
      [⟨0, 11, 0, 2, "rgba(255,0,0,0.9)"⟩] :=
  ⟨by decide, by decide⟩

/-- C10: on `exC10` no bar is bullish, so when bar 2 breaks below the
structural low the tracker fields `lastUpIndex` and `lastUpLow` still hold
their initialisation value `0`, the recency guard `2 - 0 < 1000` passes,
and the emitted short zone has `left = 0` and `bottom = 0`. -/
theorem C10_initialisation_anchor :
    exC10.all (fun c => decide (c.Close ≤ c.Open)) = true ∧
    (scanUpTo 2 exC10 2).lastUpIndex = 0 ∧
    (scanUpTo 2 exC10 2).lastUpLow = 0 ∧
    (2 : Int) - ((scanUpTo 2 exC10 2).lastUpIndex : Int) < 1000 ∧
    (process_order_blocks 2 exC10).shortBoxes =
      [⟨0, 11, 0, 2, "rgba(255,0,0,0.9)"⟩] :=
  ⟨by decide, by decide, by decide, by decide, by decide⟩

end OB
